import Mathlib

/-
Verification development for `update_netbox.py`: a NetBox inventory
reconciliation script.  The file embeds the script's pure logic —
hostname parsing against the fixed HOSTNAME_PATTERN regex, tag
derivation, STP root-bridge selection, tag reconciliation and platform
verification — as executable Lean definitions and proves the spec's
claims about them.

Python strings are modelled as Lean `String`; Python dicts used as
lookup tables are modelled as association lists in source order, with
`dictGet` mirroring `dict.get` (first-match lookup, `none` when the
key is absent).  Python `x or y` on strings is mirrored by `pyOr`,
including the falsiness of the empty string.  Machine-level concerns
do not arise (all integers are small non-negative counters parsed
from two-digit groups).
-/

set_option maxRecDepth 4096

namespace UpdateNetbox

/-! ## Fixed tables (lines 40-87 of the source, in source order) -/

def NETBOX_TAGS : List String :=
  [ "access-switch",
    "core-router",
    "distribution-switch",
    "edge-router",
    "primary",
    "secondary",
    "active",
    "standby" ]

def HOSTNAME_ROLE_MAP : List (String × String) :=
  [ ("O", "wan-accelerator"),
    ("R", "router"),
    ("S", "switch"),
    ("V", "voice-gateway"),
    ("W", "wireless-controller") ]

def HOSTNAME_SUBROLE_MAP : List (String × String) :=
  [ ("AC", "access-switch"),
    ("CR", "core-router"),
    ("DS", "distribution-switch"),
    ("ER", "edge-router"),
    ("LB", "load-balancer"),
    ("SS", "server-switch"),
    ("TS", "console-server"),
    ("VG", "voice-gateway"),
    ("WA", "wan-router"),
    ("WC", "wireless-controller"),
    ("WO", "wan-accelerator") ]

def HOSTNAME_STATUS_MAP : List (String × String) :=
  [ ("ACT", "active"),
    ("STB", "standby"),
    ("OLD", "legacy") ]

def PLATFORM_TAG_MAP : List (String × String) :=
  [ ("Network-Arista", "eos"),
    ("Network-IOS", "ios"),
    ("Network-IOS-XE", "ios"),
    ("Network-Juniper", "junos"),
    ("Network-NXOS", "nxos"),
    ("Network-Riverbed", "rios"),
    ("Network-WLC", "aireos") ]

/-- `dict.get k`: first pair whose key equals `k`, `none` otherwise. -/
def dictGet (m : List (String × String)) (k : String) : Option String :=
  (m.find? (fun kv => decide (kv.1 = k))).map Prod.snd

/-- Python `x or y` for an optional string `x`: `y` when `x` is `None`
or the empty (falsy) string, otherwise the string in `x`. -/
def pyOr (o : Option String) (d : String) : String :=
  match o with
  | some v => if v = "" then d else v
  | none => d

/-! ## The hostname regex

`HOSTNAME_PATTERN` (source line 34) is
`^(?P<role>\w{1})(?P<site>\w{3})(?P<floor>\d{2})(?P<subrole>\w{2})(?P<index>\d{2})\-?(?P<status>ACT|STB|OLD)?.*$`
applied with `re.search`.  Because the pattern is anchored with `^`
(and MULTILINE is off) it can only match at position 0.  We model the
match as a deterministic greedy scan over the character list; this is
equivalent to the backtracking semantics here because the optional
dash and status groups are followed only by `.*$`, whose success does
not depend on how much the optional groups consumed (all candidate
characters are non-newline).  `\w` and `\d` are modelled by their
ASCII classes (the source's naming convention is ASCII-only).
`.*$` is modelled by `tailOk`: `.` does not match a newline, and `$`
matches at the end of the string or just before a terminal newline. -/

def isWordChar (c : Char) : Bool :=
  c.isAlphanum || c == '_'

/-- The three alternatives of the `status` group. -/
inductive StatusCode where
  | ACT
  | STB
  | OLD
deriving DecidableEq, Repr

def statusStr : StatusCode → String
  | .ACT => "ACT"
  | .STB => "STB"
  | .OLD => "OLD"

/-- The captured groups of a successful match of `HOSTNAME_PATTERN`. -/
structure HostGroups where
  role : Char
  site1 : Char
  site2 : Char
  site3 : Char
  floor1 : Char
  floor2 : Char
  sub1 : Char
  sub2 : Char
  idx1 : Char
  idx2 : Char
  status : Option StatusCode
deriving DecidableEq, Repr

/-- The optional literal dash `\-?` (greedy). -/
def stripDash : List Char → List Char
  | '-' :: t => t
  | t => t

/-- The optional group `(ACT|STB|OLD)?` (greedy, no lookahead). -/
def takeStatus : List Char → Option StatusCode × List Char
  | 'A' :: 'C' :: 'T' :: t => (some .ACT, t)
  | 'S' :: 'T' :: 'B' :: t => (some .STB, t)
  | 'O' :: 'L' :: 'D' :: t => (some .OLD, t)
  | t => (none, t)

/-- `.*$`: the rest of the string matches iff a newline occurs only as
its final character (`.` never matches a newline; `$` matches at the
end or just before a terminal newline). -/
def tailOk : List Char → Bool
  | [] => true
  | ['\n'] => true
  | c :: t => decide (c ≠ '\n') && tailOk t

/-- Matching `HOSTNAME_PATTERN` against a hostname (as a char list). -/
def matchHostname (l : List Char) : Option HostGroups :=
  match l with
  | r :: s1 :: s2 :: s3 :: f1 :: f2 :: u1 :: u2 :: i1 :: i2 :: rest =>
    if isWordChar r && isWordChar s1 && isWordChar s2 && isWordChar s3 &&
       f1.isDigit && f2.isDigit && isWordChar u1 && isWordChar u2 &&
       i1.isDigit && i2.isDigit then
      let rest1 := stripDash rest
      let st := takeStatus rest1
      if tailOk st.2 then
        some { role := r, site1 := s1, site2 := s2, site3 := s3,
               floor1 := f1, floor2 := f2, sub1 := u1, sub2 := u2,
               idx1 := i1, idx2 := i2, status := st.1 }
      else none
    else none
  | _ => none

/-! ## Data model -/

/-- The `parsed_props` dict attached to every device by
`parse_hostname` (source lines 151-158, keys in source order). -/
structure ParsedProps where
  role : Option String
  site : Option String
  floor : Option Nat
  subrole : Option String
  index : Option Nat
  status : Option String
deriving DecidableEq, Repr

/-- The all-`None` dict `parse_hostname` starts from. -/
def emptyProps : ParsedProps :=
  { role := none, site := none, floor := none,
    subrole := none, index := none, status := none }

/-- The slice of a NetBox device record the script reads:
`name`, `tags`, `platform` (its slug when set), `device_type.model`,
and the attached `parsed_props`. -/
structure Device where
  name : String
  tags : List String
  platform : Option String
  model : String
  parsed_props : ParsedProps
deriving DecidableEq, Repr

/-- Python `int(...)` on a captured group: succeeds on a non-empty
all-digit string (which is all the `\d{2}` groups can produce),
`none` models the `ValueError` raised otherwise. -/
def strToNat? (cs : List Char) : Option Nat :=
  if cs = [] then none
  else if cs.all Char.isDigit then
    some (cs.foldl (fun n c => 10 * n + (c.toNat - '0'.toNat)) 0)
  else none

def HostGroups.roleStr (g : HostGroups) : String := String.singleton g.role
def HostGroups.siteStr (g : HostGroups) : String := String.mk [g.site1, g.site2, g.site3]
def HostGroups.floorStr (g : HostGroups) : List Char := [g.floor1, g.floor2]
def HostGroups.subroleStr (g : HostGroups) : String := String.mk [g.sub1, g.sub2]
def HostGroups.idxStr (g : HostGroups) : List Char := [g.idx1, g.idx2]

/-- `parse_hostname` (source lines 149-177), on the device's name:
returns the populated `parsed_props` on a match (translating the
role/subrole/status codes through their lookup tables with the raw
code kept verbatim when absent, per `MAP.get(code) or code`), the
all-`None` dict when the pattern does not match, and an error only if
`int()` were to fail on the floor or index group.  The source attaches
the dict to the device; `parse_hostname_device` below does that step. -/
def parse_hostname (name : String) : Except String ParsedProps :=
  match matchHostname name.toList with
  | none => .ok emptyProps
  | some g =>
    match strToNat? g.floorStr, strToNat? g.idxStr with
    | some fl, some ix =>
      .ok { role := some (pyOr (dictGet HOSTNAME_ROLE_MAP g.roleStr) g.roleStr),
            site := some g.siteStr,
            floor := some fl,
            subrole := some (pyOr (dictGet HOSTNAME_SUBROLE_MAP g.subroleStr) g.subroleStr),
            index := some ix,
            status := g.status.map (fun st =>
              pyOr (dictGet HOSTNAME_STATUS_MAP (statusStr st)) (statusStr st)) }
    | _, _ => .error "ValueError: invalid literal for int"

/-- The source's `parse_hostname` signature: update the device with
its parsed properties. -/
def parse_hostname_device (d : Device) : Except String Device :=
  (parse_hostname d.name).map (fun p => { d with parsed_props := p })

/-! ## Tag derivation (`get_device_tags`, source lines 204-231) -/

/-- A Python value stored in the `parsed_props` dict. -/
inductive PyVal where
  | str : String → PyVal
  | int : Nat → PyVal
  | pynone
deriving DecidableEq, Repr

def optStr : Option String → PyVal
  | some s => .str s
  | none => .pynone

def optNat : Option Nat → PyVal
  | some n => .int n
  | none => .pynone

/-- `device["parsed_props"].values()` in the dict's insertion order. -/
def ParsedProps.values (p : ParsedProps) : List PyVal :=
  [optStr p.role, optStr p.site, optNat p.floor,
   optStr p.subrole, optNat p.index, optStr p.status]

/-- Step 1 of `get_device_tags` (lines 209-212): the parsed-property
values that occur in `NETBOX_TAGS`.  Python `in` compares with `==`,
so an `int` or `None` value never equals a string in the allow-list;
only string values can pass.  (The guard `if device["parsed_props"]:`
is always true: the dict always has its six keys.) -/
def parsedTagValues (p : ParsedProps) : List String :=
  p.values.filterMap (fun v =>
    match v with
    | .str s => if s ∈ NETBOX_TAGS then some s else none
    | _ => none)

/-- Python `needle in hay` on strings: contiguous substring test. -/
def strContains (needle hay : String) : Prop :=
  needle.toList <:+: hay.toList

instance (needle hay : String) : Decidable (strContains needle hay) :=
  List.decidableInfix needle.toList hay.toList

/-- Step 2 of `get_device_tags` (lines 214-219): append `primary` when
the tags so far contain a distribution switch or core router subrole
and the parsed index is 1, `secondary` when it is 2. -/
def step2Tags (p : ParsedProps) (t1 : List String) : List String :=
  if "distribution-switch" ∈ t1 ∨ "core-router" ∈ t1 then
    let t2a := if p.index = some 1 then t1 ++ ["primary"] else t1
    if p.index = some 2 then t2a ++ ["secondary"] else t2a
  else t1

/-- Step 3 of `get_device_tags` (lines 221-227): a core router whose
model mentions 3850 or 3750 also serves as an access stack. -/
def step3Tags (model : String) (t2 : List String) : List String :=
  if "core-router" ∈ t2 then
    if strContains "3850" model ∨ strContains "3750" model then
      t2 ++ ["access-switch"]
    else t2
  else t2

/-- `get_device_tags` (lines 204-231): parsed-property values in the
allow-list, then `primary`/`secondary` for index 1/2 on distribution
switches and core routers, then the 3750/3850 dual-purpose heuristic,
then `list(set(...))`.  The source's set-cast produces an unspecified
order; `List.dedup` is its canonical representative (the claims only
use membership, which the set-cast preserves). -/
def get_device_tags (d : Device) : List String :=
  (step3Tags d.model (step2Tags d.parsed_props (parsedTagValues d.parsed_props))).dedup

/-! ## STP root selection (`get_stp_root`, source lines 180-201) -/

/-- `get_devices_with_subrole` (line 180): devices whose parsed
subrole equals the given one (`None` never equals a string). -/
def get_devices_with_subrole (devices : List Device) (subrole : String) : List Device :=
  devices.filter (fun x => decide (x.parsed_props.subrole = some subrole))

structure StpRoots where
  primary : Option Device
  secondary : Option Device
deriving DecidableEq, Repr

/-- One iteration of the scan loop: a device with index 1 overwrites
`primary`, one with index 2 overwrites `secondary`. -/
def stpScanStep (acc : StpRoots) (d : Device) : StpRoots :=
  let acc1 := if d.parsed_props.index = some 1 then { acc with primary := some d } else acc
  if d.parsed_props.index = some 2 then { acc1 with secondary := some d } else acc1

/-- `get_stp_root` (lines 183-201): scan the distribution switches
when there are any, otherwise scan the core routers. -/
def get_stp_root (devices : List Device) : StpRoots :=
  let result : StpRoots := { primary := none, secondary := none }
  let distribution_switches := get_devices_with_subrole devices "distribution-switch"
  if distribution_switches.isEmpty then
    (get_devices_with_subrole devices "core-router").foldl stpScanStep result
  else
    distribution_switches.foldl stpScanStep result

/-- The last device of the group (in iteration order) whose parsed
index equals `i` — the "last-write-wins" pick of the scan loop. -/
def lastWithIndex (group : List Device) (i : Nat) : Option Device :=
  (group.filter (fun d => decide (d.parsed_props.index = some i))).getLast?

/-! ## Tag reconciliation (`update_device_tags`, source lines 234-250) -/

/-- `update_device_tags` (lines 234-250): the list of tags submitted
to the inventory client, or `none` when no API call is made (the
`if device_tags:` guard fails on an empty derivation). -/
def update_device_tags (d : Device) : Option (List String) :=
  let device_tags := get_device_tags d
  if device_tags.isEmpty then none
  else some (device_tags.filter (fun tag => decide (tag ∉ d.tags)))

/-- Modelled from the spec: the inventory client's `update_device`
call is not part of src/; spec §4.4 states the reconciliation is
additive — the submitted tags are added and tags are never removed. -/
def apply_tag_update (current submitted : List String) : List String :=
  current ++ submitted

/-- The device's tag set after the reconciliation pass: unchanged when
no call is made, otherwise the additive application of the submitted
tags. -/
def tags_after_update (d : Device) : List String :=
  match update_device_tags d with
  | some submitted => apply_tag_update d.tags submitted
  | none => d.tags

/-! ## Platform verification (`verify_platform`, source lines 111-137) -/

structure Platform where
  slug : String
  id : Nat
deriving DecidableEq, Repr

/-- `get_platform_id` (lines 111-114): first platform with the given
slug, implicit `None` fall-through. -/
def get_platform_id (platforms : List Platform) (slug : String) : Option Nat :=
  (platforms.find? (fun p => decide (p.slug = slug))).map Platform.id

/-- The outcome of a `verify_platform` run. -/
inductive PlatformResult where
  | alreadySet
  | updated (slug : String) (platform_id : Option Nat)
  | noMapping
deriving DecidableEq, Repr

/-- `verify_platform` (lines 117-137): does nothing when the platform
is already set; otherwise reads `device["tags"][0]` — unconditionally,
so an empty tag list raises `IndexError` — and updates the platform
when the first tag is mapped.  (The source resolves the `platforms`
list from an enclosing scope; it is an explicit argument here.) -/
def verify_platform (platforms : List Platform) (device : Device) :
    Except String PlatformResult :=
  if device.platform.isSome then
    .ok .alreadySet
  else
    match device.tags with
    | [] => .error "IndexError: list index out of range"
    | tag :: _ =>
      match dictGet PLATFORM_TAG_MAP tag with
      | some platform_slug => .ok (.updated platform_slug (get_platform_id platforms platform_slug))
      | none => .ok .noMapping

/-! ## Helper lemmas -/

theorem length_singleton (c : Char) : (String.singleton c).length = 1 := rfl

theorem length_mk (l : List Char) : (String.mk l).length = l.length := rfl

/-- A successful match certifies the digit groups and a hostname of at
least the fixed-width prefix length. -/
theorem matchHostname_inv {l : List Char} {g : HostGroups}
    (h : matchHostname l = some g) :
    g.floor1.isDigit ∧ g.floor2.isDigit ∧ g.idx1.isDigit ∧ g.idx2.isDigit ∧
    10 ≤ l.length := by
  rw [matchHostname.eq_def] at h
  split at h
  case h_2 => exact absurd h (by simp)
  case h_1 r s1 s2 s3 f1 f2 u1 u2 i1 i2 rest =>
    split at h
    case isFalse => exact absurd h (by simp)
    case isTrue hguard =>
      simp only [Bool.and_eq_true] at hguard
      dsimp only at h
      split at h
      case isFalse => exact absurd h (by simp)
      case isTrue =>
        obtain rfl : g = _ := (Option.some.inj h).symm
        dsimp only
        exact ⟨hguard.1.1.1.1.1.2, hguard.1.1.1.1.2, hguard.1.2, hguard.2, by simp⟩

theorem matchHostname_short {l : List Char} (h : l.length < 10) :
    matchHostname l = none := by
  cases hm : matchHostname l with
  | none => rfl
  | some g => exact absurd (matchHostname_inv hm).2.2.2.2 (by omega)

/-- The numeric value `int()` produces on a two-digit group. -/
def digitVal2 (a b : Char) : Nat :=
  List.foldl (fun n c => 10 * n + (c.toNat - '0'.toNat)) 0 [a, b]

theorem strToNat?_two_digits {a b : Char} (ha : a.isDigit) (hb : b.isDigit) :
    strToNat? [a, b] = some (digitVal2 a b) := by
  simp [strToNat?, digitVal2, ha, hb]

/-- The parsed-props record a successful match produces. -/
def mkProps (g : HostGroups) : ParsedProps :=
  { role := some (pyOr (dictGet HOSTNAME_ROLE_MAP g.roleStr) g.roleStr),
    site := some g.siteStr,
    floor := some (digitVal2 g.floor1 g.floor2),
    subrole := some (pyOr (dictGet HOSTNAME_SUBROLE_MAP g.subroleStr) g.subroleStr),
    index := some (digitVal2 g.idx1 g.idx2),
    status := g.status.map (fun st =>
      pyOr (dictGet HOSTNAME_STATUS_MAP (statusStr st)) (statusStr st)) }

theorem parse_eq_of_match {s : String} {g : HostGroups}
    (h : matchHostname s.toList = some g) :
    parse_hostname s = .ok (mkProps g) := by
  obtain ⟨hf1, hf2, hi1, hi2, -⟩ := matchHostname_inv h
  unfold parse_hostname
  rw [h]
  dsimp only [HostGroups.floorStr, HostGroups.idxStr]
  rw [strToNat?_two_digits hf1 hf2, strToNat?_two_digits hi1 hi2]
  rfl

theorem parse_eq_of_no_match {s : String}
    (h : matchHostname s.toList = none) :
    parse_hostname s = .ok emptyProps := by
  unfold parse_hostname
  rw [h]

theorem dictGet_mem {m : List (String × String)} {k v : String}
    (h : dictGet m k = some v) : (k, v) ∈ m := by
  unfold dictGet at h
  cases hf : m.find? (fun kv => decide (kv.1 = k)) with
  | none => rw [hf] at h; exact absurd h (by simp)
  | some kv =>
    rw [hf] at h
    have hp : kv.1 = k := by simpa using List.find?_some hf
    have hv : kv.2 = v := by simpa using h
    have hmem := List.mem_of_find?_eq_some hf
    cases kv
    simp only at hp hv
    rw [← hp, ← hv]
    exact hmem

theorem dictGet_none {m : List (String × String)} {k : String}
    (h : dictGet m k = none) : ∀ kv ∈ m, kv.1 ≠ k := by
  unfold dictGet at h
  cases hf : m.find? (fun kv => decide (kv.1 = k)) with
  | some kv => rw [hf] at h; exact absurd h (by simp)
  | none =>
    intro kv hkv
    simpa using List.find?_eq_none.mp hf kv hkv

theorem pyOr_none (d : String) : pyOr none d = d := rfl

theorem pyOr_some {v : String} (d : String) (h : v ≠ "") : pyOr (some v) d = v := by
  simp [pyOr, h]

/-- The long-form labels: every value of the three hostname lookup
tables. -/
def lookup_values : List String :=
  HOSTNAME_ROLE_MAP.map Prod.snd ++ HOSTNAME_SUBROLE_MAP.map Prod.snd ++
    HOSTNAME_STATUS_MAP.map Prod.snd

theorem parsedTagValues_empty : parsedTagValues emptyProps = [] := rfl

theorem role_map_val_ne_empty : ∀ kv ∈ HOSTNAME_ROLE_MAP, kv.2 ≠ "" := by
  intro kv hkv
  fin_cases hkv <;> decide

theorem subrole_map_val_ne_empty : ∀ kv ∈ HOSTNAME_SUBROLE_MAP, kv.2 ≠ "" := by
  intro kv hkv
  fin_cases hkv <;> decide

theorem netbox_tags_min_len : ∀ t ∈ NETBOX_TAGS, 6 ≤ t.length := by
  intro t ht
  fin_cases ht <;> decide

/-- Step 1 of the tag derivation only ever emits allow-listed
lookup-table outputs: every surviving value is both in `NETBOX_TAGS`
and a long-form label of one of the three tables (an untranslated raw
code is 1-3 characters long, every allow-listed tag at least 6, so a
raw code can never survive the allow-list filter). -/
theorem parsedTagValues_mkProps_sub {g : HostGroups} :
    ∀ t ∈ parsedTagValues (mkProps g), t ∈ NETBOX_TAGS ∧ t ∈ lookup_values := by
  intro t ht
  rcases List.mem_filterMap.mp ht with ⟨a, ha, hfa⟩
  cases hst : g.status with
  | none =>
    simp only [ParsedProps.values, mkProps, hst, Option.map_none, optStr, optNat,
      List.mem_cons, List.not_mem_nil, or_false] at ha
    rcases ha with rfl | rfl | rfl | rfl | rfl | rfl
    · -- role value
      dsimp only at hfa
      split at hfa
      case isFalse => exact absurd hfa (by simp)
      case isTrue hmem =>
        obtain rfl : _ = t := Option.some.inj hfa
        refine ⟨hmem, ?_⟩
        cases hd : dictGet HOSTNAME_ROLE_MAP g.roleStr with
        | none =>
          rw [hd, pyOr_none] at hmem
          have := netbox_tags_min_len _ hmem
          rw [show g.roleStr.length = 1 from rfl] at this
          omega
        | some w =>
          have hwmem := dictGet_mem hd
          have hw_ne : w ≠ "" := role_map_val_ne_empty _ hwmem
          rw [pyOr_some _ hw_ne]
          exact List.mem_append_left _
            (List.mem_append_left _ (List.mem_map_of_mem Prod.snd hwmem))
    · -- site value: a 3-character string can not be allow-listed
      dsimp only at hfa
      split at hfa
      case isFalse => exact absurd hfa (by simp)
      case isTrue hmem =>
        have := netbox_tags_min_len _ hmem
        rw [show g.siteStr.length = 3 from rfl] at this
        omega
    · exact absurd hfa (by simp)
    · -- subrole value
      dsimp only at hfa
      split at hfa
      case isFalse => exact absurd hfa (by simp)
      case isTrue hmem =>
        obtain rfl : _ = t := Option.some.inj hfa
        refine ⟨hmem, ?_⟩
        cases hd : dictGet HOSTNAME_SUBROLE_MAP g.subroleStr with
        | none =>
          rw [hd, pyOr_none] at hmem
          have := netbox_tags_min_len _ hmem
          rw [show g.subroleStr.length = 2 from rfl] at this
          omega
        | some w =>
          have hwmem := dictGet_mem hd
          have hw_ne : w ≠ "" := subrole_map_val_ne_empty _ hwmem
          rw [pyOr_some _ hw_ne]
          exact List.mem_append_left _
            (List.mem_append_right _ (List.mem_map_of_mem Prod.snd hwmem))
    · exact absurd hfa (by simp)
    · exact absurd hfa (by simp)
  | some st =>
    simp only [ParsedProps.values, mkProps, hst, Option.map_some, optStr, optNat,
      List.mem_cons, List.not_mem_nil, or_false] at ha
    rcases ha with rfl | rfl | rfl | rfl | rfl | rfl
    · -- role value (as above)
      dsimp only at hfa
      split at hfa
      case isFalse => exact absurd hfa (by simp)
      case isTrue hmem =>
        obtain rfl : _ = t := Option.some.inj hfa
        refine ⟨hmem, ?_⟩
        cases hd : dictGet HOSTNAME_ROLE_MAP g.roleStr with
        | none =>
          rw [hd, pyOr_none] at hmem
          have := netbox_tags_min_len _ hmem
          rw [show g.roleStr.length = 1 from rfl] at this
          omega
        | some w =>
          have hwmem := dictGet_mem hd
          have hw_ne : w ≠ "" := role_map_val_ne_empty _ hwmem
          rw [pyOr_some _ hw_ne]
          exact List.mem_append_left _
            (List.mem_append_left _ (List.mem_map_of_mem Prod.snd hwmem))
    · -- site value
      dsimp only at hfa
      split at hfa
      case isFalse => exact absurd hfa (by simp)
      case isTrue hmem =>
        have := netbox_tags_min_len _ hmem
        rw [show g.siteStr.length = 3 from rfl] at this
        omega
    · exact absurd hfa (by simp)
    · -- subrole value (as above)
      dsimp only at hfa
      split at hfa
      case isFalse => exact absurd hfa (by simp)
      case isTrue hmem =>
        obtain rfl : _ = t := Option.some.inj hfa
        refine ⟨hmem, ?_⟩
        cases hd : dictGet HOSTNAME_SUBROLE_MAP g.subroleStr with
        | none =>
          rw [hd, pyOr_none] at hmem
          have := netbox_tags_min_len _ hmem
          rw [show g.subroleStr.length = 2 from rfl] at this
          omega
        | some w =>
          have hwmem := dictGet_mem hd
          have hw_ne : w ≠ "" := subrole_map_val_ne_empty _ hwmem
          rw [pyOr_some _ hw_ne]
          exact List.mem_append_left _
            (List.mem_append_right _ (List.mem_map_of_mem Prod.snd hwmem))
    · exact absurd hfa (by simp)
    · -- status value: the group only ever captures ACT, STB or OLD,
      -- and each is translated; "legacy" is not allow-listed
      cases st <;> dsimp only [Option.map, optStr] at hfa <;> split at hfa <;>
        first
          | exact Option.noConfusion hfa
          | (rename_i hmem
             first
               | exact absurd hmem (by decide)
               | (obtain rfl : _ = t := Option.some.inj hfa
                  exact ⟨hmem, by decide⟩))

/-- Membership in the step-2 output. -/
theorem mem_step2_iff {p : ParsedProps} {t1 : List String} {x : String} :
    x ∈ step2Tags p t1 ↔
      x ∈ t1 ∨
        (("distribution-switch" ∈ t1 ∨ "core-router" ∈ t1) ∧
          ((x = "primary" ∧ p.index = some 1) ∨ (x = "secondary" ∧ p.index = some 2))) := by
  by_cases hc : "distribution-switch" ∈ t1 ∨ "core-router" ∈ t1
  · by_cases h1 : p.index = some 1 <;> by_cases h2 : p.index = some 2
    · rw [h1] at h2
      exact absurd h2 (by decide)
    · simp only [step2Tags, if_pos hc, if_pos h1, if_neg h2, List.mem_append,
        List.mem_singleton]
      constructor
      · rintro (hx | rfl)
        · exact Or.inl hx
        · exact Or.inr ⟨hc, Or.inl ⟨rfl, h1⟩⟩
      · rintro (hx | ⟨-, ⟨rfl, -⟩ | ⟨rfl, habs⟩⟩)
        · exact Or.inl hx
        · exact Or.inr rfl
        · exact absurd habs h2
    · simp only [step2Tags, if_pos hc, if_neg h1, if_pos h2, List.mem_append,
        List.mem_singleton]
      constructor
      · rintro (hx | rfl)
        · exact Or.inl hx
        · exact Or.inr ⟨hc, Or.inr ⟨rfl, h2⟩⟩
      · rintro (hx | ⟨-, ⟨rfl, habs⟩ | ⟨rfl, -⟩⟩)
        · exact Or.inl hx
        · exact absurd habs h1
        · exact Or.inr rfl
    · simp only [step2Tags, if_pos hc, if_neg h1, if_neg h2]
      constructor
      · exact Or.inl
      · rintro (hx | ⟨-, ⟨rfl, habs⟩ | ⟨rfl, habs⟩⟩)
        · exact hx
        · exact absurd habs h1
        · exact absurd habs h2
  · simp only [step2Tags, if_neg hc]
    constructor
    · exact Or.inl
    · rintro (hx | ⟨habs, -⟩)
      · exact hx
      · exact absurd habs hc

/-- Membership in the step-3 output. -/
theorem mem_step3_iff {model : String} {t2 : List String} {x : String} :
    x ∈ step3Tags model t2 ↔
      x ∈ t2 ∨
        (x = "access-switch" ∧ "core-router" ∈ t2 ∧
          (strContains "3850" model ∨ strContains "3750" model)) := by
  by_cases hc : "core-router" ∈ t2
  · by_cases hm : strContains "3850" model ∨ strContains "3750" model
    · simp only [step3Tags, if_pos hc, if_pos hm, List.mem_append, List.mem_singleton]
      constructor
      · rintro (hx | rfl)
        · exact Or.inl hx
        · exact Or.inr ⟨rfl, hc, hm⟩
      · rintro (hx | ⟨rfl, -, -⟩)
        · exact Or.inl hx
        · exact Or.inr rfl
    · simp only [step3Tags, if_pos hc, if_neg hm]
      constructor
      · exact Or.inl
      · rintro (hx | ⟨-, -, habs⟩)
        · exact hx
        · exact absurd habs hm
  · simp only [step3Tags, if_neg hc]
    constructor
    · exact Or.inl
    · rintro (hx | ⟨-, habs, -⟩)
      · exact hx
      · exact absurd habs hc

theorem mem_get_device_tags {d : Device} {x : String} :
    x ∈ get_device_tags d ↔
      x ∈ step3Tags d.model (step2Tags d.parsed_props (parsedTagValues d.parsed_props)) := by
  simp [get_device_tags, List.mem_dedup]

theorem stpScanStep_primary (acc : StpRoots) (d : Device) :
    (stpScanStep acc d).primary =
      if d.parsed_props.index = some 1 then some d else acc.primary := by
  by_cases h1 : d.parsed_props.index = some 1 <;>
    by_cases h2 : d.parsed_props.index = some 2 <;>
    simp [stpScanStep, h1, h2]

theorem stpScanStep_secondary (acc : StpRoots) (d : Device) :
    (stpScanStep acc d).secondary =
      if d.parsed_props.index = some 2 then some d else acc.secondary := by
  by_cases h1 : d.parsed_props.index = some 1 <;>
    by_cases h2 : d.parsed_props.index = some 2 <;>
    simp [stpScanStep, h1, h2]

/-- The scan loop is last-write-wins on the `primary` slot. -/
theorem foldl_scan_primary (l : List Device) : ∀ acc : StpRoots,
    (l.foldl stpScanStep acc).primary =
      ((l.filter fun d => decide (d.parsed_props.index = some 1)).getLast?).or acc.primary := by
  induction l with
  | nil => intro acc; simp
  | cons d l ih =>
    intro acc
    rw [List.foldl_cons, ih]
    by_cases h1 : d.parsed_props.index = some 1
    · rw [List.filter_cons_of_pos (by simpa using h1), List.getLast?_cons]
      cases hg : (l.filter fun d => decide (d.parsed_props.index = some 1)).getLast? <;>
        simp [stpScanStep_primary, h1, hg, Option.or]
    · rw [List.filter_cons_of_neg (by simpa using h1)]
      rw [stpScanStep_primary, if_neg h1]

/-- The scan loop is last-write-wins on the `secondary` slot. -/
theorem foldl_scan_secondary (l : List Device) : ∀ acc : StpRoots,
    (l.foldl stpScanStep acc).secondary =
      ((l.filter fun d => decide (d.parsed_props.index = some 2)).getLast?).or acc.secondary := by
  induction l with
  | nil => intro acc; simp
  | cons d l ih =>
    intro acc
    rw [List.foldl_cons, ih]
    by_cases h2 : d.parsed_props.index = some 2
    · rw [List.filter_cons_of_pos (by simpa using h2), List.getLast?_cons]
      cases hg : (l.filter fun d => decide (d.parsed_props.index = some 2)).getLast? <;>
        simp [stpScanStep_secondary, h2, hg, Option.or]
    · rw [List.filter_cons_of_neg (by simpa using h2)]
      rw [stpScanStep_secondary, if_neg h2]

/-- Scanning a group from the empty accumulator selects the last
device of the group with index 1 as primary and the last with index 2
as secondary. -/
theorem scan_group (group : List Device) :
    group.foldl stpScanStep { primary := none, secondary := none } =
      { primary := lastWithIndex group 1, secondary := lastWithIndex group 2 } := by
  have h1 := foldl_scan_primary group { primary := none, secondary := none }
  have h2 := foldl_scan_secondary group { primary := none, secondary := none }
  calc group.foldl stpScanStep { primary := none, secondary := none }
      = { primary := (group.foldl stpScanStep { primary := none, secondary := none }).primary,
          secondary := (group.foldl stpScanStep { primary := none, secondary := none }).secondary } := rfl
    _ = { primary := lastWithIndex group 1, secondary := lastWithIndex group 2 } := by
        rw [h1, h2]
        simp [lastWithIndex]

/-! ## Claim theorems -/

/-- C1: for every device, the set of tags submitted for addition by
`update_device_tags` equals the derived tag set minus the device's
current tag set, and applying the update (additively, per the spec's
reconciliation policy §4.4 — the inventory client itself is not part
of the source) never removes a tag already present on the device. -/
theorem C1_additive_tag_reconciliation :
    ∀ (d : Device) (t : String),
      (t ∈ (update_device_tags d).getD [] ↔ (t ∈ get_device_tags d ∧ t ∉ d.tags)) ∧
      (t ∈ d.tags → t ∈ tags_after_update d) := by
  intro d t
  constructor
  · have hdef : update_device_tags d =
        if (get_device_tags d).isEmpty then none
        else some ((get_device_tags d).filter (fun tag => decide (tag ∉ d.tags))) := rfl
    rw [hdef]
    by_cases he : (get_device_tags d).isEmpty
    · rw [if_pos he]
      have hnil : get_device_tags d = [] := by simpa using he
      simp [hnil]
    · rw [if_neg he]
      simp [List.mem_filter]
  · intro ht
    unfold tags_after_update
    cases update_device_tags d with
    | none => exact ht
    | some submitted => exact List.mem_append_left _ ht

def C1dev : Device :=
  { name := "SFUL01DS01", tags := ["old-tag"], platform := none, model := "X",
    parsed_props := { role := some "switch", site := some "FUL", floor := some 1,
                      subrole := some "distribution-switch", index := some 1,
                      status := none } }

theorem C1_additive_tag_reconciliation_witness :
    ("old-tag" ∈ tags_after_update C1dev) ∧
    ("primary" ∈ (update_device_tags C1dev).getD [] ↔
      ("primary" ∈ get_device_tags C1dev ∧ "primary" ∉ C1dev.tags)) :=
  ⟨(C1_additive_tag_reconciliation C1dev "old-tag").2 (by decide),
   (C1_additive_tag_reconciliation C1dev "primary").1⟩

/-- C3: `get_stp_root` scans the distribution switches when there are
any — assigning `primary` to the last device (in iteration order)
with parsed index 1 and `secondary` to the last with index 2 — and
performs the identical scan over the core routers only when there are
no distribution switches; on an empty input, or when the chosen group
has no device with index 1 or 2, the corresponding slots are `none`. -/
theorem C3_stp_root_selection :
    (∀ devices : List Device,
      get_stp_root devices =
        if (get_devices_with_subrole devices "distribution-switch").isEmpty then
          { primary := lastWithIndex (get_devices_with_subrole devices "core-router") 1,
            secondary := lastWithIndex (get_devices_with_subrole devices "core-router") 2 }
        else
          { primary := lastWithIndex (get_devices_with_subrole devices "distribution-switch") 1,
            secondary := lastWithIndex (get_devices_with_subrole devices "distribution-switch") 2 }) ∧
    get_stp_root [] = { primary := none, secondary := none } := by
  constructor
  · intro devices
    have hdef : get_stp_root devices =
        if (get_devices_with_subrole devices "distribution-switch").isEmpty then
          (get_devices_with_subrole devices "core-router").foldl stpScanStep
            { primary := none, secondary := none }
        else
          (get_devices_with_subrole devices "distribution-switch").foldl stpScanStep
            { primary := none, secondary := none } := rfl
    rw [hdef]
    by_cases hds : (get_devices_with_subrole devices "distribution-switch").isEmpty
    · rw [if_pos hds, if_pos hds, scan_group]
    · rw [if_neg hds, if_neg hds, scan_group]
  · rfl

/-- C4: every hostname either matches the pattern — and then role,
site, floor, subrole and index are all populated, with status
populated exactly when the optional status group matched — or it does
not match and the parsed record is the all-`None` record; a partially
populated record never occurs. -/
theorem C4_all_or_nothing_parse :
    ∀ s : String,
      (matchHostname s.toList = none ∧ parse_hostname s = .ok emptyProps) ∨
      (∃ g p, matchHostname s.toList = some g ∧ parse_hostname s = .ok p ∧
        p.role.isSome ∧ p.site.isSome ∧ p.floor.isSome ∧ p.subrole.isSome ∧
        p.index.isSome ∧ (p.status.isSome ↔ g.status.isSome)) := by
  intro s
  cases hm : matchHostname s.toList with
  | none => exact Or.inl ⟨rfl, parse_eq_of_no_match hm⟩
  | some g =>
    refine Or.inr ⟨g, mkProps g, rfl, parse_eq_of_match hm, rfl, rfl, rfl, rfl, rfl, ?_⟩
    cases hst : g.status <;> simp [mkProps, hst]

/-- C6: parsing never raises — every input yields an `ok` result,
`parse_hostname "shortname"` yields the all-`None` record, and any
hostname shorter than the 10-character fixed-width prefix is cleanly
rejected the same way (so the `int()` conversion, only reached on a
match whose groups are digits, can never fail). -/
theorem C6_parse_totality :
    (∀ s : String, ∃ p, parse_hostname s = .ok p) ∧
    parse_hostname "shortname" = .ok emptyProps ∧
    (∀ s : String, s.toList.length < 10 → parse_hostname s = .ok emptyProps) := by
  refine ⟨?_, rfl, ?_⟩
  · intro s
    cases hm : matchHostname s.toList with
    | none => exact ⟨emptyProps, parse_eq_of_no_match hm⟩
    | some g => exact ⟨mkProps g, parse_eq_of_match hm⟩
  · intro s h
    exact parse_eq_of_no_match (matchHostname_short h)

theorem C6_parse_totality_witness :
    (∃ p, parse_hostname "RFUL01AC02-ACT-extra" = .ok p) ∧
    parse_hostname "ab" = .ok emptyProps :=
  ⟨C6_parse_totality.1 "RFUL01AC02-ACT-extra", C6_parse_totality.2.2 "ab" (by decide)⟩

/-- C7: the concrete example `RFUL01AC02-ACT-extra` parses to
role=router, site=FUL, floor=1, subrole=access-switch, index=2,
status=active. -/
theorem C7_concrete_parse_example :
    parse_hostname "RFUL01AC02-ACT-extra" =
      .ok { role := some "router", site := some "FUL", floor := some 1,
            subrole := some "access-switch", index := some 2,
            status := some "active" } := by
  rfl

/-- C9: on a matched hostname, a role or subrole code absent from its
lookup table is kept verbatim in the parsed record (and the parse
still succeeds); a status code absent from its table cannot occur,
since the status group only captures the three mapped codes. -/
theorem C9_unknown_code_verbatim :
    ∀ (s : String) (g : HostGroups), matchHostname s.toList = some g →
      ∃ p, parse_hostname s = .ok p ∧
        (dictGet HOSTNAME_ROLE_MAP g.roleStr = none → p.role = some g.roleStr) ∧
        (dictGet HOSTNAME_SUBROLE_MAP g.subroleStr = none → p.subrole = some g.subroleStr) ∧
        (∀ st, g.status = some st → (dictGet HOSTNAME_STATUS_MAP (statusStr st)).isSome) := by
  intro s g hm
  refine ⟨mkProps g, parse_eq_of_match hm, ?_, ?_, ?_⟩
  · intro hd
    simp [mkProps, hd, pyOr_none]
  · intro hd
    simp [mkProps, hd, pyOr_none]
  · intro st _
    cases st <;> rfl

def C9grp : HostGroups :=
  { role := 'X', site1 := 'F', site2 := 'U', site3 := 'L',
    floor1 := '0', floor2 := '1', sub1 := 'X', sub2 := 'X',
    idx1 := '0', idx2 := '2', status := none }

theorem C9_unknown_code_verbatim_witness :
    ∃ p, parse_hostname "XFUL01XX02" = .ok p ∧
      (dictGet HOSTNAME_ROLE_MAP C9grp.roleStr = none → p.role = some C9grp.roleStr) ∧
      (dictGet HOSTNAME_SUBROLE_MAP C9grp.subroleStr = none →
        p.subrole = some C9grp.subroleStr) ∧
      (∀ st, C9grp.status = some st →
        (dictGet HOSTNAME_STATUS_MAP (statusStr st)).isSome) :=
  C9_unknown_code_verbatim "XFUL01XX02" C9grp (by decide)

/-- C10: a device with no platform set and an empty tag list makes
`verify_platform` fail with an IndexError — the no-platform branch
reads `device["tags"][0]` before any guard. -/
theorem C10_verify_platform_empty_tags :
    ∀ (platforms : List Platform) (d : Device),
      d.platform = none → d.tags = [] →
      verify_platform platforms d = .error "IndexError: list index out of range" := by
  intro platforms d hp ht
  simp [verify_platform, hp, ht]

def C10dev : Device :=
  { name := "x", tags := [], platform := none, model := "", parsed_props := emptyProps }

theorem C10_verify_platform_empty_tags_witness :
    verify_platform [] C10dev = .error "IndexError: list index out of range" :=
  C10_verify_platform_empty_tags [] C10dev rfl rfl

/-- C2: for every parse result, the initial derived tag set (step 1
of `get_device_tags`) contains only long-form labels — values
produced by the lookup-table translation — that are in the fixed
allow-list; an untranslated raw code never appears (a raw code is at
most 3 characters, every allow-listed tag at least 6, so even
string-equality with an allow-listed entry is impossible). -/
theorem C2_allowlist_long_forms :
    ∀ (s : String) (p : ParsedProps), parse_hostname s = .ok p →
      ∀ t ∈ parsedTagValues p, t ∈ NETBOX_TAGS ∧ t ∈ lookup_values := by
  intro s p hp t ht
  cases hm : matchHostname s.toList with
  | none =>
    rw [parse_eq_of_no_match hm] at hp
    obtain rfl : emptyProps = p := Except.ok.inj hp
    rw [parsedTagValues_empty] at ht
    exact absurd ht (List.not_mem_nil t)
  | some g =>
    rw [parse_eq_of_match hm] at hp
    obtain rfl : mkProps g = p := Except.ok.inj hp
    exact parsedTagValues_mkProps_sub t ht

def C2props : ParsedProps :=
  { role := some "router", site := some "FUL", floor := some 1,
    subrole := some "access-switch", index := some 2, status := some "active" }

theorem C2_allowlist_long_forms_witness :
    "access-switch" ∈ NETBOX_TAGS ∧ "access-switch" ∈ lookup_values :=
  C2_allowlist_long_forms "RFUL01AC02-ACT" C2props rfl "access-switch" (by decide)

/-- C8: for a device whose parsed properties come from its hostname,
if the step-1 tag set contains `distribution-switch` or `core-router`
then `primary` is derived exactly when the parsed index is 1 and
`secondary` exactly when it is 2; and when the set contains
`core-router` and the model mentions 3850 or 3750, `access-switch` is
also derived. -/
theorem C8_index_and_model_tags :
    ∀ d : Device, parse_hostname d.name = .ok d.parsed_props →
      (("distribution-switch" ∈ parsedTagValues d.parsed_props ∨
        "core-router" ∈ parsedTagValues d.parsed_props) →
        (("primary" ∈ get_device_tags d ↔ d.parsed_props.index = some 1) ∧
         ("secondary" ∈ get_device_tags d ↔ d.parsed_props.index = some 2))) ∧
      (("core-router" ∈ parsedTagValues d.parsed_props ∧
        (strContains "3850" d.model ∨ strContains "3750" d.model)) →
        "access-switch" ∈ get_device_tags d) := by
  intro d hp
  have hsub : ∀ t ∈ parsedTagValues d.parsed_props, t ∈ NETBOX_TAGS ∧ t ∈ lookup_values := by
    cases hm : matchHostname d.name.toList with
    | none =>
      rw [parse_eq_of_no_match hm] at hp
      rw [← Except.ok.inj hp, parsedTagValues_empty]
      intro t ht
      exact absurd ht (List.not_mem_nil t)
    | some g =>
      rw [parse_eq_of_match hm] at hp
      rw [← Except.ok.inj hp]
      exact parsedTagValues_mkProps_sub
  have hP : "primary" ∉ parsedTagValues d.parsed_props :=
    fun h => absurd (hsub _ h).2 (by decide)
  have hS : "secondary" ∉ parsedTagValues d.parsed_props :=
    fun h => absurd (hsub _ h).2 (by decide)
  have e1 : ("primary" : String) ≠ "access-switch" := by decide
  have e2 : ("primary" : String) ≠ "secondary" := by decide
  have e3 : ("secondary" : String) ≠ "access-switch" := by decide
  have e4 : ("secondary" : String) ≠ "primary" := by decide
  constructor
  · intro hcond
    constructor
    · rw [mem_get_device_tags, mem_step3_iff, mem_step2_iff]
      constructor
      · rintro (hstep2 | ⟨habs, -, -⟩)
        · rcases hstep2 with h | ⟨-, hps⟩
          · exact absurd h hP
          · rcases hps with ⟨-, h1⟩ | ⟨habs, -⟩
            · exact h1
            · exact absurd habs e2
        · exact absurd habs e1
      · intro h1
        exact Or.inl (Or.inr ⟨hcond, Or.inl ⟨rfl, h1⟩⟩)
    · rw [mem_get_device_tags, mem_step3_iff, mem_step2_iff]
      constructor
      · rintro (hstep2 | ⟨habs, -, -⟩)
        · rcases hstep2 with h | ⟨-, hps⟩
          · exact absurd h hS
          · rcases hps with ⟨habs, -⟩ | ⟨-, h2⟩
            · exact absurd habs e4
            · exact h2
        · exact absurd habs e3
      · intro h2
        exact Or.inl (Or.inr ⟨hcond, Or.inr ⟨rfl, h2⟩⟩)
  · rintro ⟨hcr, hmodel⟩
    rw [mem_get_device_tags, mem_step3_iff]
    exact Or.inr ⟨rfl, mem_step2_iff.mpr (Or.inl hcr), hmodel⟩

def C8dev : Device :=
  { name := "RFUL01CR01", tags := [], platform := none, model := "WS-C3850-48P",
    parsed_props := { role := some "router", site := some "FUL", floor := some 1,
                      subrole := some "core-router", index := some 1,
                      status := none } }

theorem C8_index_and_model_tags_witness :
    (("primary" ∈ get_device_tags C8dev ↔ C8dev.parsed_props.index = some 1) ∧
     ("secondary" ∈ get_device_tags C8dev ↔ C8dev.parsed_props.index = some 2)) ∧
    "access-switch" ∈ get_device_tags C8dev ∧
    "core-router" ∈ get_device_tags C8dev ∧
    "primary" ∈ get_device_tags C8dev :=
  ⟨(C8_index_and_model_tags C8dev rfl).1 (Or.inr (by decide)),
   (C8_index_and_model_tags C8dev rfl).2 ⟨by decide, Or.inl (by decide)⟩,
   by decide, by decide⟩

/-- Re-encoding for the spec's round-trip property (§8): invert a
lookup table by value — first key whose value matches — keeping a
string no table entry produces verbatim.  This definition follows the
spec's words; it has no counterpart in the source. -/
def encodeWith (m : List (String × String)) (v : String) : String :=
  match m.find? (fun kv => decide (kv.2 = v)) with
  | some kv => kv.1
  | none => v

theorem ne_of_length_ne {a b : String} (h : a.length ≠ b.length) : a ≠ b :=
  fun he => h (he ▸ rfl)

/-- Generic round trip: translating a code through a value-injective
table with non-empty values and re-encoding recovers the code, as
long as the code itself is not one of the table's values. -/
theorem encode_pyOr_dictGet (m : List (String × String)) (k : String)
    (hne : ∀ kv ∈ m, kv.2 ≠ "")
    (hinj : ∀ kv1 ∈ m, ∀ kv2 ∈ m, kv1.2 = kv2.2 → kv1.1 = kv2.1)
    (hkv : ∀ kv ∈ m, kv.2 ≠ k) :
    encodeWith m (pyOr (dictGet m k) k) = k := by
  cases hd : dictGet m k with
  | none =>
    rw [pyOr_none]
    unfold encodeWith
    cases hf : m.find? (fun kv => decide (kv.2 = k)) with
    | none => rfl
    | some kv =>
      have hmem := List.mem_of_find?_eq_some hf
      have hp : kv.2 = k := by simpa using List.find?_some hf
      exact absurd hp (hkv _ hmem)
  | some w =>
    have hwmem : (k, w) ∈ m := dictGet_mem hd
    have hw_ne : w ≠ "" := hne _ hwmem
    rw [pyOr_some _ hw_ne]
    unfold encodeWith
    cases hf : m.find? (fun kv => decide (kv.2 = w)) with
    | none =>
      have := List.find?_eq_none.mp hf _ hwmem
      simp at this
    | some kv =>
      have hmem2 := List.mem_of_find?_eq_some hf
      have hp2 : kv.2 = w := by simpa using List.find?_some hf
      exact hinj _ hmem2 _ hwmem (by simpa using hp2)

theorem role_map_val_inj :
    ∀ kv1 ∈ HOSTNAME_ROLE_MAP, ∀ kv2 ∈ HOSTNAME_ROLE_MAP,
      kv1.2 = kv2.2 → kv1.1 = kv2.1 := by
  intro kv1 h1 kv2 h2
  fin_cases h1 <;> fin_cases h2 <;> decide

theorem subrole_map_val_inj :
    ∀ kv1 ∈ HOSTNAME_SUBROLE_MAP, ∀ kv2 ∈ HOSTNAME_SUBROLE_MAP,
      kv1.2 = kv2.2 → kv1.1 = kv2.1 := by
  intro kv1 h1 kv2 h2
  fin_cases h1 <;> fin_cases h2 <;> decide

theorem role_map_val_min_len : ∀ kv ∈ HOSTNAME_ROLE_MAP, 6 ≤ kv.2.length := by
  intro kv hkv
  fin_cases hkv <;> decide

theorem subrole_map_val_min_len : ∀ kv ∈ HOSTNAME_SUBROLE_MAP, 10 ≤ kv.2.length := by
  intro kv hkv
  fin_cases hkv <;> decide

/-- C5: for every hostname matching the pattern, re-encoding the
normalized role, subrole and status fields by inverting the lookup
tables (values not produced by a table kept verbatim) recovers the
original captured codes; the free-text suffix plays no part. -/
theorem C5_code_round_trip :
    ∀ (s : String) (g : HostGroups) (p : ParsedProps),
      matchHostname s.toList = some g → parse_hostname s = .ok p →
      p.role.map (encodeWith HOSTNAME_ROLE_MAP) = some g.roleStr ∧
      p.subrole.map (encodeWith HOSTNAME_SUBROLE_MAP) = some g.subroleStr ∧
      p.status.map (encodeWith HOSTNAME_STATUS_MAP) = Option.map statusStr g.status := by
  intro s g p hm hp
  obtain rfl : mkProps g = p := Except.ok.inj ((parse_eq_of_match hm).symm.trans hp)
  refine ⟨?_, ?_, ?_⟩
  · have henc : encodeWith HOSTNAME_ROLE_MAP
        (pyOr (dictGet HOSTNAME_ROLE_MAP g.roleStr) g.roleStr) = g.roleStr := by
      refine encode_pyOr_dictGet _ _ role_map_val_ne_empty role_map_val_inj ?_
      intro kv hkv
      refine ne_of_length_ne ?_
      have := role_map_val_min_len _ hkv
      rw [show g.roleStr.length = 1 from rfl]
      omega
    simp [mkProps, henc]
  · have henc : encodeWith HOSTNAME_SUBROLE_MAP
        (pyOr (dictGet HOSTNAME_SUBROLE_MAP g.subroleStr) g.subroleStr) = g.subroleStr := by
      refine encode_pyOr_dictGet _ _ subrole_map_val_ne_empty subrole_map_val_inj ?_
      intro kv hkv
      refine ne_of_length_ne ?_
      have := subrole_map_val_min_len _ hkv
      rw [show g.subroleStr.length = 2 from rfl]
      omega
    simp [mkProps, henc]
  · cases hst : g.status with
    | none => simp [mkProps, hst]
    | some st =>
      cases st <;> simp [mkProps, hst] <;> decide

def C5grp : HostGroups :=
  { role := 'R', site1 := 'F', site2 := 'U', site3 := 'L',
    floor1 := '0', floor2 := '1', sub1 := 'A', sub2 := 'C',
    idx1 := '0', idx2 := '2', status := some .ACT }

def C5props : ParsedProps :=
  { role := some "router", site := some "FUL", floor := some 1,
    subrole := some "access-switch", index := some 2, status := some "active" }

theorem C5_code_round_trip_witness :
    C5props.role.map (encodeWith HOSTNAME_ROLE_MAP) = some C5grp.roleStr ∧
    C5props.subrole.map (encodeWith HOSTNAME_SUBROLE_MAP) = some C5grp.subroleStr ∧
    C5props.status.map (encodeWith HOSTNAME_STATUS_MAP) = Option.map statusStr C5grp.status :=
  C5_code_round_trip "RFUL01AC02-ACT-suffix" C5grp C5props (by decide) rfl

theorem C3_stp_root_selection_witness :
    get_stp_root [] = { primary := none, secondary := none } :=
  C3_stp_root_selection.2

theorem C4_all_or_nothing_parse_witness :
    (matchHostname "shortname".toList = none ∧
      parse_hostname "shortname" = .ok emptyProps) ∨
    (∃ g p, matchHostname "shortname".toList = some g ∧
      parse_hostname "shortname" = .ok p ∧
      p.role.isSome ∧ p.site.isSome ∧ p.floor.isSome ∧ p.subrole.isSome ∧
      p.index.isSome ∧ (p.status.isSome ↔ g.status.isSome)) :=
  C4_all_or_nothing_parse "shortname"

end UpdateNetbox
